import Mathlib

/-!
Shallow embedding of the booking lifecycle core of the Labmate backend
(`src/routes/bookings.js` together with the `Booking` schema in
`src/models/Booking.js`).

Conventions of the embedding:
* Mongo ObjectIds are `String`s; timestamps are `Int` milliseconds since epoch.
* A route handler becomes a pure function from its inputs (the authenticated
  caller, the database lookup results, the parsed request body, the current
  time) to a pair `Resp × Option Booking`: the HTTP response that is sent and
  the booking document that is saved (`none` when the handler returns before
  any `booking.save()`).
* JavaScript truthiness on optional strings (`!x`) is `optFalsy`; the
  optional-chaining comparison `x?.toString() !== y` is `¬ labMatch x y`.
* `User.findById(req.user.id).select(..)` is passed in as the parameter
  `dbLab : Option String` (the value of `dbUser?.assignedLab`, `none` when the
  user record is missing or has no assignment).
-/

namespace Labmate

/-- The booking `status` enum of `src/models/Booking.js` (lines 128-132). -/
inductive BStatus where
  | pending
  | confirmed
  | in_progress
  | sample_collected
  | report_uploaded
  | result_published
  | completed
  | cancelled
deriving DecidableEq, Repr

/-- The `paymentStatus` enum of `src/models/Booking.js` (lines 68-72). -/
inductive PayStatus where
  | pending
  | completed
  | failed
  | refunded
deriving DecidableEq, Repr

/-- One entry of `selectedTests[]`: testId, name snapshot, price snapshot.
The price is optional at the request level (the route reads `test.price || 0`). -/
structure TestItem where
  testId : String
  testName : String
  price : Option Int
deriving DecidableEq, Repr

/-- One entry of `selectedPackages[]`. -/
structure PkgItem where
  packageId : String
  packageName : String
  price : Option Int
deriving DecidableEq, Repr

/-- One cleaned value inside a test-result set
(`src/models/Booking.js` lines 115-122). -/
structure ResultValue where
  label : String
  value : String
  unit : String
  referenceRange : String
  vtype : String
  required : Bool
deriving DecidableEq, Repr

/-- One stored per-test result set (`testResults[]` in the Booking schema):
keyed by `testId`, carrying the submitter and the submission time. -/
structure ResultEntry where
  testId : String
  values : List ResultValue
  submittedBy : String
  submittedAt : Int
deriving DecidableEq, Repr

/-- The central Booking document (the fields the booking routes touch). -/
structure Booking where
  userId : String
  labId : String
  selectedTests : List TestItem
  selectedPackages : List PkgItem
  appointmentDate : Int
  appointmentTime : String
  paymentMethod : String
  totalAmount : Int
  status : BStatus
  paymentStatus : PayStatus
  paidAmount : Int
  paymentDate : Option Int
  razorpayOrderId : Option String
  razorpayPaymentId : Option String
  razorpaySignature : Option String
  reportFile : Option String
  reportUploadDate : Option Int
  testResults : List ResultEntry
  notes : String
  isActive : Bool
  updatedAt : Int
deriving DecidableEq, Repr

/-- A lab document: the two fields booking creation reads
(`lab.isActive`, `lab.availableTests`). -/
structure Lab where
  isActive : Bool
  availableTests : List String
deriving DecidableEq, Repr

/-- The authenticated caller (`req.user`): id, role string, and the
`assignedLab` value carried in the token (possibly absent). -/
structure Caller where
  id : String
  role : String
  assignedLab : Option String
deriving DecidableEq, Repr

/-- The HTTP response a handler sends: status code, the `success` flag of the
response envelope, and the `message`. -/
structure Resp where
  code : Nat
  ok : Bool
  msg : String
deriving DecidableEq, Repr

/-- JavaScript falsiness of an optional string: absent or the empty string. -/
def optFalsy : Option String → Bool
  | none => true
  | some s => s = ""

/-- The roles admitted by the staff-facing booking routes:
`['staff', 'lab_technician', 'xray_technician', 'local_admin']`. -/
def opRoles : List String := ["staff", "lab_technician", "xray_technician", "local_admin"]

/-- The lab-operator subset checked separately from `local_admin`:
`['staff', 'lab_technician', 'xray_technician']`. -/
def labRoles : List String := ["staff", "lab_technician", "xray_technician"]

/-- The comparison `effectiveAssignedLab?.toString() === labId.toString()`: true when the
resolved assignment is present and equals the booking lab. -/
def labMatch (eff : Option String) (labId : String) : Bool :=
  match eff with
  | some l => l = labId
  | none => false

/-- The `effectiveAssignedLab` resolution used verbatim in every staff-facing
route: start from the token value, and when it is falsy (and the role is a
staff role, which holds at every call site) fall back to the value read from
the user document in the database. -/
def resolveLab (caller : Caller) (dbLab : Option String) : Option String :=
  if optFalsy caller.assignedLab ∧ caller.role ∈ opRoles then dbLab
  else caller.assignedLab

/-- Model of `Booking.findOne({_id: id, userId: uid, isActive: true})`, given the
document `store` that `_id` resolves to. -/
def findOwnedActive (store : Option Booking) (uid : String) : Option Booking :=
  match store with
  | some b => if b.userId = uid ∧ b.isActive then some b else none
  | none => none

/-- Model of `Booking.findOne({_id: id, isActive: true})`. -/
def findActive (store : Option Booking) : Option Booking :=
  match store with
  | some b => if b.isActive then some b else none
  | none => none

/-- The target set accepted by `PUT /:id/status`
(`validStatuses` at `src/routes/bookings.js:661`). -/
def staffValidStatuses : List BStatus :=
  [.confirmed, .sample_collected, .result_published]

/-- Handler for `PUT /api/bookings/:id/status` (`src/routes/bookings.js:646-718`):
role gate, target validation, `findById` (no isActive filter), lab-scope
authorization with DB fallback, then unconditional status assignment. -/
def updateStatus (caller : Caller) (dbLab : Option String) (store : Option Booking)
    (target : BStatus) (now : Int) : Resp × Option Booking :=
  if caller.role ∉ opRoles then
    (⟨403, false, "Access denied. Only staff and local admins can update booking status."⟩, none)
  else if target ∉ staffValidStatuses then
    (⟨400, false, "Invalid status. Must be one of: confirmed, sample_collected, result_published"⟩, none)
  else
    match store with
    | none => (⟨404, false, "Booking not found"⟩, none)
    | some b =>
      let eff := resolveLab caller dbLab
      if caller.role ∈ labRoles ∧ ¬ labMatch eff b.labId then
        (⟨403, false, "Access denied. You can only update bookings for your assigned lab."⟩, none)
      else if caller.role = "local_admin" ∧ ¬ labMatch eff b.labId then
        (⟨403, false, "Access denied. You can only update bookings for your assigned lab."⟩, none)
      else
        (⟨200, true, "Booking status updated successfully"⟩,
          some { b with status := target, updatedAt := now })

/-- Sum of snapshot prices as the creation route computes it:
`reduce((sum, t) => sum + (t.price || 0), 0)`. -/
def sumTestPrices (ts : List TestItem) : Int :=
  ts.foldl (fun s t => s + t.price.getD 0) 0

/-- Sum of snapshot package prices: `reduce((sum, p) => sum + (p.price || 0), 0)`. -/
def sumPkgPrices (ps : List PkgItem) : Int :=
  ps.foldl (fun s p => s + p.price.getD 0) 0

/-- The Mongoose `Booking` schema validation that runs inside
`booking.save()` and is turned into a 400 `ValidationError` response by the
creation route's catch block (`src/routes/bookings.js:141-148`):
`paymentMethod` must lie in the `{pay_now, pay_later}` enum
(`src/models/Booking.js:62-66`), and every selected test and package
snapshot must carry its required `price` and a non-empty name (Mongoose
`required: true` rejects both a missing `Number` and an empty `String`,
`src/models/Booking.js:19-49`). The remaining required schema fields are
always populated by the route's `bookingData`. -/
def schemaValid (b : Booking) : Prop :=
  b.paymentMethod ∈ ["pay_now", "pay_later"] ∧
  (∀ t ∈ b.selectedTests, t.price ≠ none ∧ t.testName ≠ "") ∧
  (∀ p ∈ b.selectedPackages, p.price ≠ none ∧ p.packageName ≠ "")

instance schemaValidDecidable (b : Booking) : Decidable (schemaValid b) := by
  unfold schemaValid
  infer_instance

/-- Handler for `POST /api/bookings` (`src/routes/bookings.js:12-155`): required-field
check, lab lookup and active check (404), non-empty-selection check (400),
lab-membership check of the selected tests (400), snapshot-price summation,
then creation with `status: pending` and `paymentStatus: pending` (all three
branches of the payment-method switch assign `pending`); the final
`booking.save()` runs the schema validation, and a failure is answered with
a 400 `Validation error` response by the catch block. `lab` is the result
of `Lab.findById(labId)`. -/
def createBooking (userId : String) (labId : Option String) (lab : Option Lab)
    (selectedTests : Option (List TestItem)) (selectedPackages : Option (List PkgItem))
    (appointmentDate : Option Int) (appointmentTime : Option String)
    (paymentMethod : Option String) (notes : Option String) (now : Int) :
    Resp × Option Booking :=
  if optFalsy labId ∨ appointmentDate = none ∨ optFalsy appointmentTime ∨ optFalsy paymentMethod then
    (⟨400, false, "Lab ID, appointment date, time, and payment method are required"⟩, none)
  else
    match lab with
    | none => (⟨404, false, "Lab not found or inactive"⟩, none)
    | some L =>
      if ¬ L.isActive then (⟨404, false, "Lab not found or inactive"⟩, none)
      else
        let tests := selectedTests.getD []
        let pkgs := selectedPackages.getD []
        if tests = [] ∧ pkgs = [] then
          (⟨400, false, "At least one test or package must be selected"⟩, none)
        else
          let invalidTests := tests.filter (fun t => t.testId ∉ L.availableTests)
          if tests ≠ [] ∧ invalidTests ≠ [] then
            (⟨400, false, "The following tests are not available at this lab"⟩, none)
          else
            let totalAmount := sumTestPrices tests + sumPkgPrices pkgs
            let bd : Booking :=
              { userId := userId, labId := labId.getD "",
                selectedTests := tests, selectedPackages := pkgs,
                appointmentDate := appointmentDate.getD 0,
                appointmentTime := appointmentTime.getD "",
                paymentMethod := paymentMethod.getD "",
                totalAmount := totalAmount,
                status := .pending, paymentStatus := .pending,
                paidAmount := 0, paymentDate := none,
                razorpayOrderId := none, razorpayPaymentId := none,
                razorpaySignature := none, reportFile := none,
                reportUploadDate := none, testResults := [],
                notes := notes.getD "", isActive := true, updatedAt := now }
            if schemaValid bd then
              (⟨201, true, "Booking created successfully"⟩, some bd)
            else
              (⟨400, false, "Validation error"⟩, none)

/-- Handler for `PUT /api/bookings/:id` (`src/routes/bookings.js:237-294`), owner update:
`findOne({_id, userId, isActive: true})`; a truthy `status` in the body is
accepted only when it is `cancelled` (no time guard, no current-status
precondition); then date/time/notes updates and save. -/
def updateBooking (store : Option Booking) (uid : String) (statusReq : Option BStatus)
    (appointmentDate : Option Int) (appointmentTime : Option String)
    (notesReq : Option String) (now : Int) : Resp × Option Booking :=
  match findOwnedActive store uid with
  | none => (⟨404, false, "Booking not found"⟩, none)
  | some b =>
    match statusReq with
    | some s =>
      if s ∉ [BStatus.cancelled] then
        (⟨400, false, "Invalid status update"⟩, none)
      else
        let b1 := { b with status := s }
        let b2 := { b1 with appointmentDate := appointmentDate.getD b1.appointmentDate }
        let b3 := { b2 with appointmentTime := appointmentTime.getD b2.appointmentTime }
        let b4 := { b3 with notes := notesReq.getD b3.notes, updatedAt := now }
        (⟨200, true, "Booking updated successfully"⟩, some b4)
    | none =>
      let b2 := { b with appointmentDate := appointmentDate.getD b.appointmentDate }
      let b3 := { b2 with appointmentTime := appointmentTime.getD b2.appointmentTime }
      let b4 := { b3 with notes := notesReq.getD b3.notes, updatedAt := now }
      (⟨200, true, "Booking updated successfully"⟩, some b4)

/-- Handler for `DELETE /api/bookings/:id` (`src/routes/bookings.js:426-469`), owner
soft-cancel: the guard `hoursUntilAppointment < 24` computed with real
division over milliseconds is exactly `appointmentDate - now < 24 * 3600000`;
on success the handler sets `isActive = false` and `status = cancelled`
(no precondition on the current status). -/
def deleteBooking (store : Option Booking) (uid : String) (now : Int) :
    Resp × Option Booking :=
  match findOwnedActive store uid with
  | none => (⟨404, false, "Booking not found"⟩, none)
  | some b =>
    if b.appointmentDate - now < 86400000 then
      (⟨400, false, "Booking cannot be cancelled less than 24 hours before appointment"⟩, none)
    else
      (⟨200, true, "Booking cancelled successfully"⟩,
        some { b with isActive := false, status := .cancelled, updatedAt := now })

/-- First registered handler for `POST /api/bookings/:id/payment`
(`src/routes/bookings.js:299-421`). When all three gateway fields are truthy
it is the gateway confirmation branch: owner check, `pay_now` check, then it
assigns the correlation triple, `paymentStatus = completed`,
`paidAmount = totalAmount`, `paymentDate = now` — with no signature
verification and no check that the payment is not already completed.
Otherwise it is the staff lab-payment branch: role gate, lab-scope
authorization with DB fallback, `pay_later` check, already-completed check,
then `paymentStatus = completed`. -/
def processPayment (caller : Caller) (dbLab : Option String) (store : Option Booking)
    (orderId payId sig : Option String) (now : Int) : Resp × Option Booking :=
  match findActive store with
  | none => (⟨404, false, "Booking not found"⟩, none)
  | some b =>
    if ¬ optFalsy orderId ∧ ¬ optFalsy payId ∧ ¬ optFalsy sig then
      if b.userId ≠ caller.id then
        (⟨403, false, "Access denied. You can only process payments for your own bookings."⟩, none)
      else if b.paymentMethod ≠ "pay_now" then
        (⟨400, false, "This booking does not require immediate payment"⟩, none)
      else
        (⟨200, true, "Payment processed successfully"⟩,
          some { b with razorpayOrderId := orderId, razorpayPaymentId := payId,
                        razorpaySignature := sig, paymentStatus := .completed,
                        paidAmount := b.totalAmount, paymentDate := some now })
    else
      if caller.role ∉ opRoles then
        (⟨403, false, "Access denied. Only staff and local admins can process lab payments."⟩, none)
      else
        let eff := resolveLab caller dbLab
        if caller.role ∈ labRoles ∧ ¬ labMatch eff b.labId then
          (⟨403, false, "Access denied. You can only process payments for bookings in your assigned lab."⟩, none)
        else if caller.role = "local_admin" ∧ ¬ labMatch eff b.labId then
          (⟨403, false, "Access denied. You can only process payments for bookings in your assigned lab."⟩, none)
        else if b.paymentMethod ≠ "pay_later" then
          (⟨400, false, "This booking is not eligible for lab payment processing"⟩, none)
        else if b.paymentStatus = .completed then
          (⟨400, false, "Payment has already been processed for this booking"⟩, none)
        else
          (⟨200, true, "Payment processed successfully"⟩,
            some { b with paymentStatus := .completed, paymentDate := some now,
                          updatedAt := now })

/-- Second registered handler for `POST /api/bookings/:id/payment`
(`src/routes/bookings.js:1010-1085`). It validates that `razorpayPaymentId`
and `razorpaySignature` are present, requires ownership and `pay_now`,
rejects an already-completed payment with 400, and on success assigns the
triple, `paymentStatus = completed`, `paidAmount = totalAmount`,
`paymentDate = now` and `status = confirmed` (unconditionally) — again with
no signature verification (the source comments that verification is skipped
and the frontend is trusted). -/
def processPaymentSecond (callerId : String) (store : Option Booking)
    (orderId payId sig : Option String) (now : Int) : Resp × Option Booking :=
  if optFalsy payId ∨ optFalsy sig then
    (⟨400, false, "Payment details are required"⟩, none)
  else
    match findOwnedActive store callerId with
    | none => (⟨404, false, "Booking not found"⟩, none)
    | some b =>
      if b.paymentMethod ≠ "pay_now" then
        (⟨400, false, "This booking is not eligible for online payment"⟩, none)
      else if b.paymentStatus = .completed then
        (⟨400, false, "Payment has already been processed for this booking"⟩, none)
      else
        (⟨200, true, "Payment processed successfully"⟩,
          some { b with razorpayOrderId := orderId, razorpayPaymentId := payId,
                        razorpaySignature := sig, paymentStatus := .completed,
                        paidAmount := b.totalAmount, paymentDate := some now,
                        status := .confirmed, updatedAt := now })

/-- The handler Express actually dispatches `POST /api/bookings/:id/payment`
to. Express matches layers in registration order and the first handler sends
a response without calling `next()`, so the first definition (line 299)
handles every request and the second definition (line 1010) is unreachable. -/
def paymentRoute (caller : Caller) (dbLab : Option String) (store : Option Booking)
    (orderId payId sig : Option String) (now : Int) : Resp × Option Booking :=
  processPayment caller dbLab store orderId payId sig now

/-- The target list accepted by `PUT /admin/:id/status`
(`src/routes/bookings.js:1196`) — note it omits `in_progress`,
`report_uploaded` and `result_published`. -/
def adminValidStatuses : List BStatus :=
  [.pending, .confirmed, .sample_collected, .completed, .cancelled]

/-- Handler for `PUT /api/bookings/admin/:id/status` (`src/routes/bookings.js:1177-1233`):
admin gate, required-status check, membership in `adminValidStatuses`,
`findById` (no isActive filter, no current-status check), assignment. -/
def adminUpdateStatus (caller : Caller) (store : Option Booking)
    (statusReq : Option BStatus) (now : Int) : Resp × Option Booking :=
  if caller.role ≠ "admin" then
    (⟨403, false, "Access denied. Admin privileges required."⟩, none)
  else
    match statusReq with
    | none => (⟨400, false, "Status is required"⟩, none)
    | some s =>
      if s ∉ adminValidStatuses then
        (⟨400, false, "Invalid status"⟩, none)
      else
        match store with
        | none => (⟨404, false, "Booking not found"⟩, none)
        | some b =>
          (⟨200, true, "Booking status updated successfully"⟩,
            some { b with status := s, updatedAt := now })

/-- One raw value inside a submitted result set, before cleaning
(`{label, value, unit, referenceRange, type, required}` with any field
possibly absent; `required` is already coerced by `!!`). -/
structure RawValue where
  label : Option String
  value : String
  unit : Option String
  referenceRange : Option String
  vtype : Option String
  required : Bool
deriving DecidableEq, Repr

/-- One element of the submitted `testResults` array of `POST /:id/results`:
`{ testId, values }`, either possibly missing (a null element is modelled by
`testId = none`). -/
structure RawSubmission where
  testId : Option String
  values : Option (List RawValue)
deriving DecidableEq, Repr

/-- The `type` normalisation of the results route: keep the value only when
it is one of `text`, `number`, `boolean`, else default to `text`. -/
def vtypeClean : Option String → String
  | some t => if t ∈ ["text", "number", "boolean"] then t else "text"
  | none => "text"

/-- The per-value cleaning of `POST /:id/results`
(`src/routes/bookings.js:902-909`): trim the string fields (defaulting absent
ones to the empty string), normalise `type`, pass `value` through. -/
def cleanValue (v : RawValue) : ResultValue :=
  { label := (v.label.getD "").trim
    value := v.value
    unit := (v.unit.getD "").trim
    referenceRange := (v.referenceRange.getD "").trim
    vtype := vtypeClean v.vtype
    required := v.required }

/-- The replacement entry the results route builds for a submitted testId:
cleaned values, the submitting caller and the submission time. -/
def newEntry (tid : String) (vals : List RawValue) (uid : String) (now : Int) :
    ResultEntry :=
  { testId := tid, values := vals.map cleanValue, submittedBy := uid, submittedAt := now }

/-- JavaScript `Map.prototype.set` on an association list kept in insertion order: an
existing key is updated in place, a new key is appended. -/
def mapSet (m : List (String × ResultEntry)) (k : String) (v : ResultEntry) :
    List (String × ResultEntry) :=
  if m.any (fun p => p.1 = k) then
    m.map (fun p => if p.1 = k then (k, v) else p)
  else
    m ++ [(k, v)]

/-- The fold `(booking.testResults || []).forEach(r => byTestId.set(r.testId, r))`:
fold the stored result sets into a fresh map. -/
def buildMap (rs : List ResultEntry) : List (String × ResultEntry) :=
  rs.foldl (fun m r => mapSet m r.testId r) []

/-- The skip condition of the submission loop:
`if (!tr || !tr.testId || !Array.isArray(tr.values)) return` — an entry is
processed only when its testId is truthy and its values field is an array. -/
def subValid (tr : RawSubmission) : Bool :=
  ¬ optFalsy tr.testId ∧ tr.values.isSome

/-- The submission loop: for each valid entry, overwrite the map entry for
its testId with a freshly built result set. -/
def applySubs (uid : String) (now : Int) (m : List (String × ResultEntry))
    (trs : List RawSubmission) : List (String × ResultEntry) :=
  trs.foldl
    (fun m tr =>
      if subValid tr then
        mapSet m (tr.testId.getD "") (newEntry (tr.testId.getD "") (tr.values.getD []) uid now)
      else m)
    m

/-- First-match lookup in the association list (maps with unique keys make
this the JS `Map.get`). -/
def findByKey (m : List (String × ResultEntry)) (k : String) : Option ResultEntry :=
  match m with
  | [] => none
  | (k₁, v) :: t => if k₁ = k then some v else findByKey t k

/-- Lookup of a stored result set by testId in a booking's `testResults`
array (first match). -/
def findResult (rs : List ResultEntry) (k : String) : Option ResultEntry :=
  match rs with
  | [] => none
  | r :: t => if r.testId = k then some r else findResult t k

/-- Handler for `POST /api/bookings/:id/results` (`src/routes/bookings.js:859-930`):
role gate, non-empty-array check, `findById`, status precondition
(`confirmed` or `sample_collected`), lab-scope authorization with DB
fallback (a single check for every staff role), then the testId-keyed
upsert, `status = result_published`, save. A non-array `testResults` body is
modelled as `none`. -/
def submitResults (caller : Caller) (dbLab : Option String) (store : Option Booking)
    (testResults : Option (List RawSubmission)) (now : Int) : Resp × Option Booking :=
  if caller.role ∉ opRoles then
    (⟨403, false, "Access denied. Only staff and local admins can submit results."⟩, none)
  else
    match testResults with
    | none => (⟨400, false, "testResults must be a non-empty array"⟩, none)
    | some trs =>
      if trs = [] then (⟨400, false, "testResults must be a non-empty array"⟩, none)
      else
        match store with
        | none => (⟨404, false, "Booking not found"⟩, none)
        | some b =>
          if b.status ∉ [BStatus.confirmed, BStatus.sample_collected] then
            (⟨400, false, "Results can only be submitted for confirmed or sample_collected bookings"⟩, none)
          else
            let eff := resolveLab caller dbLab
            if ¬ labMatch eff b.labId then
              (⟨403, false, "Access denied for this lab"⟩, none)
            else
              let m := applySubs caller.id now (buildMap b.testResults) trs
              (⟨200, true, "Results saved successfully"⟩,
                some { b with testResults := m.map Prod.snd,
                              status := .result_published, updatedAt := now })

/-- Handler for `POST /api/bookings/:id/upload-report`
(`src/routes/bookings.js:754-854`): role gate, `findById`, status
precondition (`confirmed` or `sample_collected`, checked before the lab
authorization), lab-scope authorization with DB fallback, file-presence
check, then `reportFile`/`reportUploadDate` recording and
`status = result_published`. `file` is the multer-saved path of `req.file`
(`none` when no file was uploaded). -/
def uploadReport (caller : Caller) (dbLab : Option String) (store : Option Booking)
    (file : Option String) (now : Int) : Resp × Option Booking :=
  if caller.role ∉ opRoles then
    (⟨403, false, "Access denied. Only staff and local admins can upload reports."⟩, none)
  else
    match store with
    | none => (⟨404, false, "Booking not found"⟩, none)
    | some b =>
      if b.status ∉ [BStatus.confirmed, BStatus.sample_collected] then
        (⟨400, false, "Report can only be uploaded for bookings with confirmed or sample_collected status"⟩, none)
      else
        let eff := resolveLab caller dbLab
        if caller.role ∈ labRoles ∧ ¬ labMatch eff b.labId then
          (⟨403, false, "Access denied. You can only upload reports for bookings in your assigned lab."⟩, none)
        else if caller.role = "local_admin" ∧ ¬ labMatch eff b.labId then
          (⟨403, false, "Access denied. You can only upload reports for bookings in your assigned lab."⟩, none)
        else
          match file with
          | none => (⟨400, false, "No file uploaded"⟩, none)
          | some f =>
            (⟨200, true, "Report uploaded successfully"⟩,
              some { b with reportFile := some f, reportUploadDate := some now,
                            status := .result_published, updatedAt := now })

/-- Authorization prefix of `GET /api/bookings/lab/:labId`
(`src/routes/bookings.js:563-641`): role gate (written in the source as
`role !== 'local_admin' && !labRoles.includes(role)`), `effectiveAssignedLab`
resolution with DB fallback, then the two lab-scope checks against the
`labId` route parameter; on success the handler only reads and returns the
lab's booking list, so the model returns the response envelope alone. -/
def getLabBookings (caller : Caller) (dbLab : Option String) (labId : String) : Resp :=
  if caller.role ≠ "local_admin" ∧ caller.role ∉ labRoles then
    ⟨403, false, "Access denied. Only local admins and staff can view lab bookings."⟩
  else
    let eff := resolveLab caller dbLab
    if caller.role ∈ labRoles ∧ ¬ labMatch eff labId then
      ⟨403, false, "Access denied. You can only view bookings for your assigned lab."⟩
    else if caller.role = "local_admin" ∧ ¬ labMatch eff labId then
      ⟨403, false, "Access denied. You can only view bookings for your assigned lab."⟩
    else ⟨200, true, ""⟩

/-- Authorization prefix of `GET /api/bookings/lab/:labId/reports`
(`src/routes/bookings.js:474-558`): role gate over the staff roles,
`effectiveAssignedLab` resolution with DB fallback, then the two lab-scope
checks against the `labId` route parameter; the success path only reads. -/
def getLabReports (caller : Caller) (dbLab : Option String) (labId : String) : Resp :=
  if caller.role ∉ opRoles then
    ⟨403, false, "Access denied. Only staff and local admins can view lab reports."⟩
  else
    let eff := resolveLab caller dbLab
    if caller.role ∈ labRoles ∧ ¬ labMatch eff labId then
      ⟨403, false, "Access denied. You can only view reports for your assigned lab."⟩
    else if caller.role = "local_admin" ∧ ¬ labMatch eff labId then
      ⟨403, false, "Access denied. You can only view reports for your assigned lab."⟩
    else ⟨200, true, ""⟩

/-! ### Shared fixtures and helper lemmas -/

/-- A baseline active `pay_now` booking used by the concrete evaluations. -/
def bk0 : Booking :=
  { userId := "u1", labId := "lab1", selectedTests := [⟨"t1", "CBC", some 500⟩],
    selectedPackages := [], appointmentDate := 200000000, appointmentTime := "10:00",
    paymentMethod := "pay_now", totalAmount := 500, status := .pending,
    paymentStatus := .pending, paidAmount := 0, paymentDate := none,
    razorpayOrderId := none, razorpayPaymentId := none, razorpaySignature := none,
    reportFile := none, reportUploadDate := none, testResults := [], notes := "",
    isActive := true, updatedAt := 0 }

/-- A `pay_now` booking whose payment has already been completed by a first
confirmation call (`paidAmount = 500`, `paymentDate = 1000`). -/
def bkPaid : Booking :=
  { bk0 with paymentStatus := .completed, paidAmount := 500, paymentDate := some 1000,
             razorpayOrderId := some "order_A", razorpayPaymentId := some "pay_A",
             razorpaySignature := some "sig_A" }

/-- A booking of lab `labA` that satisfies every operation-specific guard of
the lab-scoped operations: active, `pay_later` with pending payment, and in
`confirmed` status. Used by the lab-scope witness. -/
def bkC3 : Booking :=
  { bk0 with labId := "labA", paymentMethod := "pay_later", status := .confirmed }

/-- A booking soft-deleted by its owner: `isActive = false`,
`status = cancelled`. -/
def bkDeleted : Booking := { bk0 with isActive := false, status := .cancelled }

/-- A booking exactly 24 hours before its appointment (at `now = 0`), in a
status outside `{pending, confirmed}`. -/
def bkBoundary : Booking := { bk0 with status := .completed, appointmentDate := 86400000 }

/-- Every map the results route builds pairs each key with an entry whose
`testId` is that key. -/
def WellKeyed (m : List (String × ResultEntry)) : Prop :=
  ∀ p ∈ m, p.2.testId = p.1

/-- A `confirmed` booking of lab `lab1` already holding one stored result set
(for `tX`). -/
def bkRes : Booking :=
  { bk0 with status := .confirmed, testResults := [⟨"tX", [], "s0", 50⟩] }

/-- One submitted result set for test `t1` with a single raw value. -/
def subm1 : RawSubmission :=
  ⟨some "t1", some [⟨some " Hb ", "13.5", some "g/dL", none, some "number", true⟩]⟩

theorem labMatch_eq_true_iff (e : Option String) (l : String) :
    labMatch e l = true ↔ e = some l := by
  cases e <;> simp [labMatch]

/-- Reduction of `updateStatus` for an admitted role and a valid target:
the outcome depends only on the lab-scope check. -/
theorem updateStatus_eq (caller : Caller) (dbLab : Option String) (b : Booking)
    (target : BStatus) (now : Int)
    (hrole : caller.role ∈ opRoles) (htgt : target ∈ staffValidStatuses) :
    updateStatus caller dbLab (some b) target now =
      if labMatch (resolveLab caller dbLab) b.labId = true then
        (⟨200, true, "Booking status updated successfully"⟩,
          some { b with status := target, updatedAt := now })
      else
        (⟨403, false, "Access denied. You can only update bookings for your assigned lab."⟩,
          none) := by
  have hsplit : caller.role ∈ labRoles ∨ caller.role = "local_admin" := by
    simp only [opRoles, List.mem_cons, List.mem_singleton] at hrole
    simp only [labRoles, List.mem_cons, List.mem_singleton]
    tauto
  by_cases h : labMatch (resolveLab caller dbLab) b.labId = true
  · simp [updateStatus, hrole, htgt, h]
  · rw [Bool.not_eq_true] at h
    rw [if_neg (by simp [h])]
    rcases hsplit with hlab | hadm
    · simp [updateStatus, hrole, htgt, h, hlab]
    · have hnot : ("local_admin" : String) ∉ labRoles := by decide
      simp [updateStatus, hrole, htgt, h, hadm, hnot]
      decide

/-- Reduction of the lab-payment branch of the dispatched payment handler
(gateway triple absent, booking active, `pay_later`, payment not completed)
for an admitted role: the outcome depends only on the lab-scope check, which
runs before the payment-method and already-completed guards. -/
theorem processPayment_lab_eq (caller : Caller) (dbLab : Option String) (b : Booking)
    (now : Int) (hrole : caller.role ∈ opRoles) (hact : b.isActive = true)
    (hpm : b.paymentMethod = "pay_later") (hps : b.paymentStatus ≠ PayStatus.completed) :
    processPayment caller dbLab (some b) none none none now =
      if labMatch (resolveLab caller dbLab) b.labId = true then
        (⟨200, true, "Payment processed successfully"⟩,
          some { b with paymentStatus := .completed, paymentDate := some now,
                        updatedAt := now })
      else
        (⟨403, false, "Access denied. You can only process payments for bookings in your assigned lab."⟩,
          none) := by
  have hsplit : caller.role ∈ labRoles ∨ caller.role = "local_admin" := by
    simp only [opRoles, List.mem_cons, List.mem_singleton] at hrole
    simp only [labRoles, List.mem_cons, List.mem_singleton]
    tauto
  by_cases h : labMatch (resolveLab caller dbLab) b.labId = true
  · simp [processPayment, findActive, hact, hrole, hpm, hps, h, optFalsy]
  · rw [Bool.not_eq_true] at h
    rw [if_neg (by simp [h])]
    rcases hsplit with hlab | hadm
    · simp [processPayment, findActive, hact, hrole, h, hlab, optFalsy]
    · have hnot : ("local_admin" : String) ∉ labRoles := by decide
      simp [processPayment, findActive, hact, hrole, h, hadm, hnot, optFalsy]
      decide

/-- Reduction of the results submission (admitted role, non-empty valid body,
status precondition satisfied): the outcome depends only on the single
lab-scope check the route applies to every staff role. -/
theorem submitResults_eq (caller : Caller) (dbLab : Option String) (b : Booking)
    (trs : List RawSubmission) (now : Int)
    (hrole : caller.role ∈ opRoles) (hne : trs ≠ [])
    (hst : b.status = BStatus.confirmed ∨ b.status = BStatus.sample_collected) :
    submitResults caller dbLab (some b) (some trs) now =
      if labMatch (resolveLab caller dbLab) b.labId = true then
        (⟨200, true, "Results saved successfully"⟩,
          some { b with
            testResults := (applySubs caller.id now (buildMap b.testResults) trs).map Prod.snd,
            status := .result_published, updatedAt := now })
      else (⟨403, false, "Access denied for this lab"⟩, none) := by
  have hstl : b.status ∈ [BStatus.confirmed, BStatus.sample_collected] := by
    rcases hst with h | h <;> simp [h]
  by_cases h : labMatch (resolveLab caller dbLab) b.labId = true
  · simp [submitResults, hrole, hne, hstl, h]
  · rw [Bool.not_eq_true] at h
    rw [if_neg (by simp [h])]
    simp [submitResults, hrole, hne, hstl, h]

/-- Reduction of the report upload (admitted role, status precondition
satisfied, a file present): the outcome depends only on the lab-scope
check. -/
theorem uploadReport_eq (caller : Caller) (dbLab : Option String) (b : Booking)
    (f : String) (now : Int)
    (hrole : caller.role ∈ opRoles)
    (hst : b.status = BStatus.confirmed ∨ b.status = BStatus.sample_collected) :
    uploadReport caller dbLab (some b) (some f) now =
      if labMatch (resolveLab caller dbLab) b.labId = true then
        (⟨200, true, "Report uploaded successfully"⟩,
          some { b with reportFile := some f, reportUploadDate := some now,
                        status := .result_published, updatedAt := now })
      else
        (⟨403, false, "Access denied. You can only upload reports for bookings in your assigned lab."⟩,
          none) := by
  have hsplit : caller.role ∈ labRoles ∨ caller.role = "local_admin" := by
    simp only [opRoles, List.mem_cons, List.mem_singleton] at hrole
    simp only [labRoles, List.mem_cons, List.mem_singleton]
    tauto
  have hstl : b.status ∈ [BStatus.confirmed, BStatus.sample_collected] := by
    rcases hst with h | h <;> simp [h]
  by_cases h : labMatch (resolveLab caller dbLab) b.labId = true
  · simp [uploadReport, hrole, hstl, h]
  · rw [Bool.not_eq_true] at h
    rw [if_neg (by simp [h])]
    rcases hsplit with hlab | hadm
    · simp [uploadReport, hrole, hstl, h, hlab]
    · have hnot : ("local_admin" : String) ∉ labRoles := by decide
      simp [uploadReport, hrole, hstl, h, hadm, hnot]
      decide

/-- Reduction of the lab booking listing for an admitted role: the outcome
depends only on the lab-scope check against the `labId` parameter. -/
theorem getLabBookings_eq (caller : Caller) (dbLab : Option String) (labId : String)
    (hrole : caller.role ∈ opRoles) :
    getLabBookings caller dbLab labId =
      if labMatch (resolveLab caller dbLab) labId = true then ⟨200, true, ""⟩
      else ⟨403, false, "Access denied. You can only view bookings for your assigned lab."⟩ := by
  have hsplit : caller.role ∈ labRoles ∨ caller.role = "local_admin" := by
    simp only [opRoles, List.mem_cons, List.mem_singleton] at hrole
    simp only [labRoles, List.mem_cons, List.mem_singleton]
    tauto
  have hgate : ¬ (caller.role ≠ "local_admin" ∧ caller.role ∉ labRoles) := by
    rcases hsplit with hlab | hadm
    · exact fun hc => hc.2 hlab
    · exact fun hc => hc.1 hadm
  by_cases h : labMatch (resolveLab caller dbLab) labId = true
  · simp [getLabBookings, hgate, h]
  · rw [Bool.not_eq_true] at h
    rw [if_neg (by simp [h])]
    rcases hsplit with hlab | hadm
    · simp [getLabBookings, hgate, h, hlab]
    · have hnot : ("local_admin" : String) ∉ labRoles := by decide
      simp [getLabBookings, hgate, h, hadm, hnot]

/-- Reduction of the lab reports listing for an admitted role: the outcome
depends only on the lab-scope check against the `labId` parameter. -/
theorem getLabReports_eq (caller : Caller) (dbLab : Option String) (labId : String)
    (hrole : caller.role ∈ opRoles) :
    getLabReports caller dbLab labId =
      if labMatch (resolveLab caller dbLab) labId = true then ⟨200, true, ""⟩
      else ⟨403, false, "Access denied. You can only view reports for your assigned lab."⟩ := by
  have hsplit : caller.role ∈ labRoles ∨ caller.role = "local_admin" := by
    simp only [opRoles, List.mem_cons, List.mem_singleton] at hrole
    simp only [labRoles, List.mem_cons, List.mem_singleton]
    tauto
  by_cases h : labMatch (resolveLab caller dbLab) labId = true
  · simp [getLabReports, hrole, h]
  · rw [Bool.not_eq_true] at h
    rw [if_neg (by simp [h])]
    rcases hsplit with hlab | hadm
    · simp [getLabReports, hrole, h, hlab]
    · have hnot : ("local_admin" : String) ∉ labRoles := by decide
      simp [getLabReports, hrole, h, hadm, hnot]
      decide

/-- Shape of every lab-scope decision on a booking-mutating handler: success
exactly on a resolved-lab match, 403 on a mismatch. -/
theorem ite_pair_code_iff (e : Option String) (l : String) (u v : Resp × Option Booking)
    (hu : u.1.code = 200) (hv : v.1.code = 403) :
    (((if labMatch e l = true then u else v).1.code = 200) ↔ e = some l) ∧
    (e ≠ some l → (if labMatch e l = true then u else v).1.code = 403) := by
  by_cases h : labMatch e l = true
  · have hm := (labMatch_eq_true_iff e l).mp h
    rw [if_pos h]
    exact ⟨⟨fun _ => hm, fun _ => hu⟩, fun hne => absurd hm hne⟩
  · have hne : e ≠ some l := fun hc => h ((labMatch_eq_true_iff e l).mpr hc)
    rw [if_neg h]
    refine ⟨⟨fun hc => ?_, fun hc => absurd hc hne⟩, fun _ => hv⟩
    rw [hv] at hc
    exact absurd hc (by decide)

/-- Shape of every lab-scope decision on a read-only lab listing: success
exactly on a resolved-lab match, 403 on a mismatch. -/
theorem ite_resp_code_iff (e : Option String) (l : String) (u v : Resp)
    (hu : u.code = 200) (hv : v.code = 403) :
    (((if labMatch e l = true then u else v).code = 200) ↔ e = some l) ∧
    (e ≠ some l → (if labMatch e l = true then u else v).code = 403) := by
  by_cases h : labMatch e l = true
  · have hm := (labMatch_eq_true_iff e l).mp h
    rw [if_pos h]
    exact ⟨⟨fun _ => hm, fun _ => hu⟩, fun hne => absurd hm hne⟩
  · have hne : e ≠ some l := fun hc => h ((labMatch_eq_true_iff e l).mpr hc)
    rw [if_neg h]
    refine ⟨⟨fun hc => ?_, fun hc => absurd hc hne⟩, fun _ => hv⟩
    rw [hv] at hc
    exact absurd hc (by decide)

/-! ### C1 -/

/-- C1: refuted on the code — the gateway payment-confirmation operation that
Express dispatches (the first `POST /:id/payment` handler) performs no HMAC
signature verification at all: with an arbitrary, never-verified signature
string on a `pay_now` booking with non-completed `paymentStatus`, it
transitions `paymentStatus` to `completed` and stores the unverified
signature verbatim. -/
theorem c1_completed_without_verification :
    (paymentRoute ⟨"u1", "user", none⟩ none (some bk0)
        (some "order_A") (some "pay_A") (some "garbage-signature") 1000).1.code = 200 ∧
    ((paymentRoute ⟨"u1", "user", none⟩ none (some bk0)
        (some "order_A") (some "pay_A") (some "garbage-signature") 1000).2.map
      Booking.paymentStatus) = some PayStatus.completed ∧
    ((paymentRoute ⟨"u1", "user", none⟩ none (some bk0)
        (some "order_A") (some "pay_A") (some "garbage-signature") 1000).2.map
      Booking.razorpaySignature) = some (some "garbage-signature") ∧
    bk0.paymentStatus = PayStatus.pending ∧ bk0.paymentMethod = "pay_now" := by
  decide

/-! ### C2 -/

/-- C2: refuted on the code — the handler Express dispatches has no
already-completed check on the gateway branch: a second confirmation call on
`bkPaid` succeeds with 200 (it is not rejected) and silently overwrites
`paymentDate` (1000 becomes 2000) and the correlation fields. -/
theorem c2_second_confirmation_reapplied :
    bkPaid.paymentStatus = PayStatus.completed ∧
    (paymentRoute ⟨"u1", "user", none⟩ none (some bkPaid)
        (some "order_B") (some "pay_B") (some "sig_B") 2000).1.code = 200 ∧
    (paymentRoute ⟨"u1", "user", none⟩ none (some bkPaid)
        (some "order_B") (some "pay_B") (some "sig_B") 2000).1.ok = true ∧
    ((paymentRoute ⟨"u1", "user", none⟩ none (some bkPaid)
        (some "order_B") (some "pay_B") (some "sig_B") 2000).2.map
      Booking.paymentDate) = some (some 2000) ∧
    ((paymentRoute ⟨"u1", "user", none⟩ none (some bkPaid)
        (some "order_B") (some "pay_B") (some "sig_B") 2000).2.map
      Booking.razorpayPaymentId) = some (some "pay_B") := by
  decide

/-! ### C5 -/

/-- C5: refuted on the dispatched code — the handler that actually serves
`POST /:id/payment` records the correlation triple, sets
`paymentStatus = completed`, `paidAmount = totalAmount` and
`paymentDate = now`, but leaves a `pending` status `pending` (no promotion
to `confirmed`); the second, shadowed handler would have set
`status = confirmed`. -/
theorem c5_live_flow_leaves_status_pending :
    bk0.status = BStatus.pending ∧
    (paymentRoute ⟨"u1", "user", none⟩ none (some bk0)
        (some "order_C") (some "pay_C") (some "sig_C") 1000).1.code = 200 ∧
    ((paymentRoute ⟨"u1", "user", none⟩ none (some bk0)
        (some "order_C") (some "pay_C") (some "sig_C") 1000).2.map Booking.status) =
      some BStatus.pending ∧
    ((paymentRoute ⟨"u1", "user", none⟩ none (some bk0)
        (some "order_C") (some "pay_C") (some "sig_C") 1000).2.map
      Booking.paymentStatus) = some PayStatus.completed ∧
    ((paymentRoute ⟨"u1", "user", none⟩ none (some bk0)
        (some "order_C") (some "pay_C") (some "sig_C") 1000).2.map Booking.paidAmount) =
      some 500 ∧
    ((paymentRoute ⟨"u1", "user", none⟩ none (some bk0)
        (some "order_C") (some "pay_C") (some "sig_C") 1000).2.map Booking.paymentDate) =
      some (some 1000) ∧
    ((processPaymentSecond "u1" (some bk0)
        (some "order_C") (some "pay_C") (some "sig_C") 1000).2.map Booking.status) =
      some BStatus.confirmed := by
  decide

/-! ### C3 -/

/-- Resolution fallback: `resolveLab` falls back to the Identity Directory value when the cached
credential lacks the assignment and the caller is a staff role. -/
theorem resolveLab_of_falsy (caller : Caller) (dbLab : Option String)
    (hf : optFalsy caller.assignedLab = true) (hrole : caller.role ∈ opRoles) :
    resolveLab caller dbLab = dbLab := by
  simp [resolveLab, hf, hrole]

/-- C3: for every staff-role or local_admin caller and every lab-scoped
booking operation modelled from the source — the staff status update, the
staff lab-payment branch of the dispatched payment handler, the results
submission, the report upload, and the two lab booking listings — the
operation succeeds exactly when the target lab equals the caller's resolved
`effectiveAssignedLab`, and a lab mismatch is denied with 403 Forbidden
(with the operation's other guards satisfied, since some routes check a
status precondition before the lab check); when the cached credential lacks
the lab assignment, the resolution falls back to the Identity Directory
value before any lab-scope denial, so a caller with a matching directory
assignment is never denied solely for the missing cached field. -/
theorem c3_lab_scope_authorization (caller : Caller) (dbLab : Option String)
    (b : Booking) (target : BStatus) (trs : List RawSubmission) (f labId : String)
    (now : Int)
    (hrole : caller.role ∈ opRoles)
    (htgt : target ∈ staffValidStatuses)
    (hact : b.isActive = true)
    (hpm : b.paymentMethod = "pay_later")
    (hps : b.paymentStatus ≠ PayStatus.completed)
    (hne : trs ≠ [])
    (hst : b.status = BStatus.confirmed ∨ b.status = BStatus.sample_collected) :
    ((updateStatus caller dbLab (some b) target now).1.code = 200 ↔
        resolveLab caller dbLab = some b.labId) ∧
    (resolveLab caller dbLab ≠ some b.labId →
        (updateStatus caller dbLab (some b) target now).1.code = 403) ∧
    ((processPayment caller dbLab (some b) none none none now).1.code = 200 ↔
        resolveLab caller dbLab = some b.labId) ∧
    (resolveLab caller dbLab ≠ some b.labId →
        (processPayment caller dbLab (some b) none none none now).1.code = 403) ∧
    ((submitResults caller dbLab (some b) (some trs) now).1.code = 200 ↔
        resolveLab caller dbLab = some b.labId) ∧
    (resolveLab caller dbLab ≠ some b.labId →
        (submitResults caller dbLab (some b) (some trs) now).1.code = 403) ∧
    ((uploadReport caller dbLab (some b) (some f) now).1.code = 200 ↔
        resolveLab caller dbLab = some b.labId) ∧
    (resolveLab caller dbLab ≠ some b.labId →
        (uploadReport caller dbLab (some b) (some f) now).1.code = 403) ∧
    ((getLabBookings caller dbLab labId).code = 200 ↔
        resolveLab caller dbLab = some labId) ∧
    (resolveLab caller dbLab ≠ some labId →
        (getLabBookings caller dbLab labId).code = 403) ∧
    ((getLabReports caller dbLab labId).code = 200 ↔
        resolveLab caller dbLab = some labId) ∧
    (resolveLab caller dbLab ≠ some labId →
        (getLabReports caller dbLab labId).code = 403) ∧
    (optFalsy caller.assignedLab = true → resolveLab caller dbLab = dbLab) := by
  rw [updateStatus_eq caller dbLab b target now hrole htgt,
    processPayment_lab_eq caller dbLab b now hrole hact hpm hps,
    submitResults_eq caller dbLab b trs now hrole hne hst,
    uploadReport_eq caller dbLab b f now hrole hst,
    getLabBookings_eq caller dbLab labId hrole,
    getLabReports_eq caller dbLab labId hrole]
  exact ⟨(ite_pair_code_iff _ _ _ _ rfl rfl).1, (ite_pair_code_iff _ _ _ _ rfl rfl).2,
    (ite_pair_code_iff _ _ _ _ rfl rfl).1, (ite_pair_code_iff _ _ _ _ rfl rfl).2,
    (ite_pair_code_iff _ _ _ _ rfl rfl).1, (ite_pair_code_iff _ _ _ _ rfl rfl).2,
    (ite_pair_code_iff _ _ _ _ rfl rfl).1, (ite_pair_code_iff _ _ _ _ rfl rfl).2,
    (ite_resp_code_iff _ _ _ _ rfl rfl).1, (ite_resp_code_iff _ _ _ _ rfl rfl).2,
    (ite_resp_code_iff _ _ _ _ rfl rfl).1, (ite_resp_code_iff _ _ _ _ rfl rfl).2,
    fun hf => resolveLab_of_falsy caller dbLab hf hrole⟩

/-- Witness for C3 at a lab technician whose token lacks the assignment and
whose directory record assigns lab `labA`, acting on the lab-`labA` booking
`bkC3` across all six lab-scoped operations. -/
theorem c3_lab_scope_authorization_witness :
    ("lab_technician" ∈ opRoles) ∧ (BStatus.confirmed ∈ staffValidStatuses) ∧
    bkC3.isActive = true ∧ bkC3.paymentMethod = "pay_later" ∧
    bkC3.paymentStatus ≠ PayStatus.completed ∧ [subm1] ≠ [] ∧
    (bkC3.status = BStatus.confirmed ∨ bkC3.status = BStatus.sample_collected) ∧
    (((updateStatus ⟨"s1", "lab_technician", none⟩ (some "labA") (some bkC3)
          .confirmed 7).1.code = 200 ↔
        resolveLab ⟨"s1", "lab_technician", none⟩ (some "labA") = some bkC3.labId) ∧
     (resolveLab ⟨"s1", "lab_technician", none⟩ (some "labA") ≠ some bkC3.labId →
        (updateStatus ⟨"s1", "lab_technician", none⟩ (some "labA") (some bkC3)
          .confirmed 7).1.code = 403) ∧
     (((processPayment ⟨"s1", "lab_technician", none⟩ (some "labA") (some bkC3)
          none none none 7).1.code = 200) ↔
        resolveLab ⟨"s1", "lab_technician", none⟩ (some "labA") = some bkC3.labId) ∧
     (resolveLab ⟨"s1", "lab_technician", none⟩ (some "labA") ≠ some bkC3.labId →
        (processPayment ⟨"s1", "lab_technician", none⟩ (some "labA") (some bkC3)
          none none none 7).1.code = 403) ∧
     (((submitResults ⟨"s1", "lab_technician", none⟩ (some "labA") (some bkC3)
          (some [subm1]) 7).1.code = 200) ↔
        resolveLab ⟨"s1", "lab_technician", none⟩ (some "labA") = some bkC3.labId) ∧
     (resolveLab ⟨"s1", "lab_technician", none⟩ (some "labA") ≠ some bkC3.labId →
        (submitResults ⟨"s1", "lab_technician", none⟩ (some "labA") (some bkC3)
          (some [subm1]) 7).1.code = 403) ∧
     (((uploadReport ⟨"s1", "lab_technician", none⟩ (some "labA") (some bkC3)
          (some "uploads/r1.pdf") 7).1.code = 200) ↔
        resolveLab ⟨"s1", "lab_technician", none⟩ (some "labA") = some bkC3.labId) ∧
     (resolveLab ⟨"s1", "lab_technician", none⟩ (some "labA") ≠ some bkC3.labId →
        (uploadReport ⟨"s1", "lab_technician", none⟩ (some "labA") (some bkC3)
          (some "uploads/r1.pdf") 7).1.code = 403) ∧
     (((getLabBookings ⟨"s1", "lab_technician", none⟩ (some "labA") "labA").code = 200) ↔
        resolveLab ⟨"s1", "lab_technician", none⟩ (some "labA") = some "labA") ∧
     (resolveLab ⟨"s1", "lab_technician", none⟩ (some "labA") ≠ some "labA" →
        (getLabBookings ⟨"s1", "lab_technician", none⟩ (some "labA") "labA").code = 403) ∧
     (((getLabReports ⟨"s1", "lab_technician", none⟩ (some "labA") "labA").code = 200) ↔
        resolveLab ⟨"s1", "lab_technician", none⟩ (some "labA") = some "labA") ∧
     (resolveLab ⟨"s1", "lab_technician", none⟩ (some "labA") ≠ some "labA" →
        (getLabReports ⟨"s1", "lab_technician", none⟩ (some "labA") "labA").code = 403) ∧
     (optFalsy (Caller.mk "s1" "lab_technician" none).assignedLab = true →
        resolveLab ⟨"s1", "lab_technician", none⟩ (some "labA") = some "labA")) :=
  ⟨by decide, by decide, by decide, by decide, by decide, by decide, by decide,
    c3_lab_scope_authorization ⟨"s1", "lab_technician", none⟩ (some "labA") bkC3
      .confirmed [subm1] "uploads/r1.pdf" "labA" 7 (by decide) (by decide) (by decide)
      (by decide) (by decide) (by decide) (by decide)⟩

/-! ### C6 -/

/-- C6: refuted on the code — the staff status-update operation never checks
the current status: on a booking whose status is `pending` (outside the
claimed source set) the requested transition to `sample_collected` is
applied and persisted. -/
theorem c6_counterexample_applied_from_pending :
    bk0.status = BStatus.pending ∧
    bk0.status ∉ staffValidStatuses ∧
    (updateStatus ⟨"s1", "staff", some "lab1"⟩ none (some bk0)
      .sample_collected 500).1.code = 200 ∧
    ((updateStatus ⟨"s1", "staff", some "lab1"⟩ none (some bk0)
      .sample_collected 500).2.map Booking.status) = some BStatus.sample_collected := by
  decide

/-- C6 (amended): the requested target is accepted only when it lies in
`{confirmed, sample_collected, result_published}` (in particular `completed`
and `cancelled` are rejected with a 400 validation error), and an accepted,
authorized transition is applied from any current status — the code imposes
no restriction on the source status. -/
theorem c6_target_set_enforced (caller : Caller) (dbLab : Option String)
    (b : Booking) (target : BStatus) (now : Int)
    (hrole : caller.role ∈ opRoles) :
    (target ∉ staffValidStatuses →
      (updateStatus caller dbLab (some b) target now).1.code = 400 ∧
      (updateStatus caller dbLab (some b) target now).2 = none) ∧
    (target ∈ staffValidStatuses → resolveLab caller dbLab = some b.labId →
      (updateStatus caller dbLab (some b) target now).1.code = 200 ∧
      (updateStatus caller dbLab (some b) target now).2 =
        some { b with status := target, updatedAt := now }) ∧
    BStatus.completed ∉ staffValidStatuses ∧
    BStatus.cancelled ∉ staffValidStatuses := by
  refine ⟨fun hno => ?_, fun hyes hm => ?_, by decide, by decide⟩
  · simp [updateStatus, hrole, hno]
  · rw [updateStatus_eq caller dbLab b target now hrole hyes,
      if_pos ((labMatch_eq_true_iff _ _).mpr hm)]
    exact ⟨rfl, rfl⟩

/-- Witness for C6 (amended) at a staff caller of lab `lab1` acting on the
baseline `lab1` booking with target `completed`. -/
theorem c6_target_set_enforced_witness :
    ("staff" ∈ opRoles) ∧
    ((BStatus.completed ∉ staffValidStatuses →
      (updateStatus ⟨"s1", "staff", some "lab1"⟩ none (some bk0)
        .completed 9).1.code = 400 ∧
      (updateStatus ⟨"s1", "staff", some "lab1"⟩ none (some bk0)
        .completed 9).2 = none) ∧
    (BStatus.completed ∈ staffValidStatuses →
      resolveLab ⟨"s1", "staff", some "lab1"⟩ none = some bk0.labId →
      (updateStatus ⟨"s1", "staff", some "lab1"⟩ none (some bk0)
        .completed 9).1.code = 200 ∧
      (updateStatus ⟨"s1", "staff", some "lab1"⟩ none (some bk0)
        .completed 9).2 = some { bk0 with status := .completed, updatedAt := 9 }) ∧
    BStatus.completed ∉ staffValidStatuses ∧
    BStatus.cancelled ∉ staffValidStatuses) :=
  ⟨by decide,
    c6_target_set_enforced ⟨"s1", "staff", some "lab1"⟩ none bk0 .completed 9 (by decide)⟩

/-! ### C10 -/

/-- C10: the staff status-update operation looks the booking up by id alone —
no `isActive` filter and no current-status precondition — so for any booking
(in particular one soft-deleted by its owner, or already completed) an
authorized lab operator's update to a valid target succeeds, and the
persisted document carries the new status while keeping its `isActive`
flag (a soft-deleted booking stays soft-deleted but gets the new status). -/
theorem c10_status_update_ignores_soft_delete (caller : Caller)
    (dbLab : Option String) (b : Booking) (target : BStatus) (now : Int)
    (hrole : caller.role ∈ opRoles) (htgt : target ∈ staffValidStatuses)
    (hm : resolveLab caller dbLab = some b.labId) :
    (updateStatus caller dbLab (some b) target now).1.code = 200 ∧
    (updateStatus caller dbLab (some b) target now).2 =
      some { b with status := target, updatedAt := now } ∧
    ((updateStatus caller dbLab (some b) target now).2.map Booking.isActive) =
      some b.isActive := by
  rw [updateStatus_eq caller dbLab b target now hrole htgt,
    if_pos ((labMatch_eq_true_iff _ _).mpr hm)]
  exact ⟨rfl, rfl, rfl⟩

/-- Witness for C10: a staff member of lab `lab1` sets a soft-deleted,
cancelled booking of lab `lab1` to `confirmed` and the update persists. -/
theorem c10_status_update_ignores_soft_delete_witness :
    ("staff" ∈ opRoles) ∧ (BStatus.confirmed ∈ staffValidStatuses) ∧
    resolveLab ⟨"s1", "staff", some "lab1"⟩ none = some bkDeleted.labId ∧
    ((updateStatus ⟨"s1", "staff", some "lab1"⟩ none (some bkDeleted)
        .confirmed 11).1.code = 200 ∧
      (updateStatus ⟨"s1", "staff", some "lab1"⟩ none (some bkDeleted)
        .confirmed 11).2 = some { bkDeleted with status := .confirmed, updatedAt := 11 } ∧
      ((updateStatus ⟨"s1", "staff", some "lab1"⟩ none (some bkDeleted)
        .confirmed 11).2.map Booking.isActive) = some bkDeleted.isActive) :=
  ⟨by decide, by decide, by decide,
    c10_status_update_ignores_soft_delete ⟨"s1", "staff", some "lab1"⟩ none bkDeleted
      .confirmed 11 (by decide) (by decide) (by decide)⟩

/-! ### C4 -/

/-- C4: refuted on the code — at exactly the 24-hour boundary the owner
delete path cancels successfully (the guard is `< 24`, so the boundary is
inclusive, not exclusive), it does so from a `completed` status (no
restriction to `pending`/`confirmed`), and the owner update path sets
`status = cancelled` with less than 24 hours remaining (no time guard on
that path at all). -/
theorem c4_counterexample_guard_gaps :
    bkBoundary.appointmentDate - 0 = 86400000 ∧
    bkBoundary.status = BStatus.completed ∧
    (deleteBooking (some bkBoundary) "u1" 0).1.code = 200 ∧
    ((deleteBooking (some bkBoundary) "u1" 0).2.map Booking.status) =
      some BStatus.cancelled ∧
    ((deleteBooking (some bkBoundary) "u1" 0).2.map Booking.isActive) = some false ∧
    bk0.appointmentDate - 199999999 < 86400000 ∧
    (updateBooking (some bk0) "u1" (some .cancelled) none none none 199999999).1.code = 200 ∧
    ((updateBooking (some bk0) "u1" (some .cancelled) none none none
        199999999).2.map Booking.status) = some BStatus.cancelled := by
  decide

/-- C4 (amended): owner cancellation through the delete path succeeds exactly
when at least 24 hours remain before the appointment
(`now ≤ appointmentDate - 24h`, boundary inclusive), regardless of the
booking's current status, and then soft-deletes the booking; with less than
24 hours remaining it is denied with a 400 error and nothing is persisted;
the owner update path, however, sets `status = cancelled` with no 24-hour
guard. -/
theorem c4_cancel_guard_inclusive (b : Booking) (uid : String) (now : Int)
    (hown : b.userId = uid) (hact : b.isActive = true) :
    ((deleteBooking (some b) uid now).1.code = 200 ↔
        86400000 ≤ b.appointmentDate - now) ∧
    (86400000 ≤ b.appointmentDate - now →
      (deleteBooking (some b) uid now).2 =
        some { b with isActive := false, status := .cancelled, updatedAt := now }) ∧
    (b.appointmentDate - now < 86400000 →
      (deleteBooking (some b) uid now).1.code = 400 ∧
      (deleteBooking (some b) uid now).2 = none) ∧
    ((updateBooking (some b) uid (some .cancelled) none none none now).1.code = 200 ∧
      ((updateBooking (some b) uid (some .cancelled) none none none now).2.map
        Booking.status) = some BStatus.cancelled) := by
  have hfind : findOwnedActive (some b) uid = some b := by
    simp [findOwnedActive, hown, hact]
  refine ⟨?_, fun hle => ?_, fun hlt => ?_, ?_⟩
  · by_cases h : b.appointmentDate - now < 86400000
    · simp only [deleteBooking, hfind, if_pos h]
      constructor
      · intro hc
        exact absurd hc (by decide)
      · intro hle
        omega
    · simp only [deleteBooking, hfind, if_neg h]
      constructor
      · intro _
        omega
      · intro _
        trivial
  · simp only [deleteBooking, hfind, if_neg (not_lt.mpr hle)]
  · simp only [deleteBooking, hfind, if_pos hlt]
    exact ⟨trivial, trivial⟩
  · simp [updateBooking, hfind]

/-- Witness for C4 (amended) at the baseline booking and `now = 0`
(more than 24 hours before the appointment at 200000000 ms). -/
theorem c4_cancel_guard_inclusive_witness :
    bk0.userId = "u1" ∧ bk0.isActive = true ∧
    (((deleteBooking (some bk0) "u1" 0).1.code = 200 ↔
        86400000 ≤ bk0.appointmentDate - 0) ∧
     (86400000 ≤ bk0.appointmentDate - 0 →
       (deleteBooking (some bk0) "u1" 0).2 =
         some { bk0 with isActive := false, status := .cancelled, updatedAt := 0 }) ∧
     (bk0.appointmentDate - 0 < 86400000 →
       (deleteBooking (some bk0) "u1" 0).1.code = 400 ∧
       (deleteBooking (some bk0) "u1" 0).2 = none) ∧
     ((updateBooking (some bk0) "u1" (some .cancelled) none none none 0).1.code = 200 ∧
       ((updateBooking (some bk0) "u1" (some .cancelled) none none none 0).2.map
         Booking.status) = some BStatus.cancelled)) :=
  ⟨by decide, by decide, c4_cancel_guard_inclusive bk0 "u1" 0 (by decide) (by decide)⟩

/-! ### C9 -/

/-- C9: refuted on the code — the admin status-override rejects the
enum status `result_published` (its accepted list omits `in_progress`,
`report_uploaded` and `result_published`), even on a non-terminal
(`pending`) booking. -/
theorem c9_counterexample_result_published_rejected :
    bk0.status = BStatus.pending ∧
    (adminUpdateStatus ⟨"a1", "admin", none⟩ (some bk0)
      (some .result_published) 3).1.code = 400 ∧
    (adminUpdateStatus ⟨"a1", "admin", none⟩ (some bk0)
      (some .result_published) 3).2 = none := by
  decide

/-- C9 (amended): for any booking (the code has no non-terminal check), the
admin status-override accepts exactly the targets in
`{pending, confirmed, sample_collected, completed, cancelled}` and sets the
booking status to the target; the remaining enum statuses `in_progress`,
`report_uploaded` and `result_published` are rejected with a 400 error. -/
theorem c9_admin_override_subset (caller : Caller) (b : Booking)
    (target : BStatus) (now : Int) (hadmin : caller.role = "admin") :
    (target ∈ adminValidStatuses →
      (adminUpdateStatus caller (some b) (some target) now).1.code = 200 ∧
      (adminUpdateStatus caller (some b) (some target) now).2 =
        some { b with status := target, updatedAt := now }) ∧
    (target ∉ adminValidStatuses →
      (adminUpdateStatus caller (some b) (some target) now).1.code = 400 ∧
      (adminUpdateStatus caller (some b) (some target) now).2 = none) ∧
    BStatus.in_progress ∉ adminValidStatuses ∧
    BStatus.report_uploaded ∉ adminValidStatuses ∧
    BStatus.result_published ∉ adminValidStatuses := by
  refine ⟨fun hin => ?_, fun hout => ?_, by decide, by decide, by decide⟩
  · simp [adminUpdateStatus, hadmin, hin]
  · simp [adminUpdateStatus, hadmin, hout]

/-- Witness for C9 (amended) at target `completed` on the baseline booking. -/
theorem c9_admin_override_subset_witness :
    (Caller.mk "a1" "admin" none).role = "admin" ∧
    ((BStatus.completed ∈ adminValidStatuses →
      (adminUpdateStatus ⟨"a1", "admin", none⟩ (some bk0) (some .completed) 4).1.code = 200 ∧
      (adminUpdateStatus ⟨"a1", "admin", none⟩ (some bk0) (some .completed) 4).2 =
        some { bk0 with status := .completed, updatedAt := 4 }) ∧
    (BStatus.completed ∉ adminValidStatuses →
      (adminUpdateStatus ⟨"a1", "admin", none⟩ (some bk0) (some .completed) 4).1.code = 400 ∧
      (adminUpdateStatus ⟨"a1", "admin", none⟩ (some bk0) (some .completed) 4).2 = none) ∧
    BStatus.in_progress ∉ adminValidStatuses ∧
    BStatus.report_uploaded ∉ adminValidStatuses ∧
    BStatus.result_published ∉ adminValidStatuses) :=
  ⟨by decide, c9_admin_override_subset ⟨"a1", "admin", none⟩ bk0 .completed 4 rfl⟩

/-! ### C8 -/

/-- C8: refuted on the code — the lab check runs before the selection check,
so a creation request with zero tests and zero packages referring to an
inactive lab yields 404, not the claimed unconditional 400 validation
error. -/
theorem c8_counterexample_inactive_lab_zero_selection :
    (createBooking "u1" (some "lab9") (some ⟨false, []⟩) none none (some 100)
      (some "10:00") (some "pay_later") none 0).1.code = 404 ∧
    (createBooking "u1" (some "lab9") (some ⟨false, []⟩) none none (some 100)
      (some "10:00") (some "pay_later") none 0).1.code ≠ 400 := by
  decide

/-- C8 (amended): with the required fields present, a missing or inactive
lab yields 404; with an active lab, an empty selection (zero tests and zero
packages) yields a 400 validation error; and a successful creation — one
whose selection also passes the schema validation run by `booking.save()`
(a `paymentMethod` in the `{pay_now, pay_later}` enum and a price and
non-empty name on every selected item) — produces a booking with
`status = pending`, `paymentStatus = pending` and `totalAmount` equal to
the sum of the selected tests' snapshot prices plus the selected packages'
snapshot prices, while a payment method outside the enum is answered with
the 400 validation error of the save path. The guards are ordered: the lab
check runs first, so an empty selection with a bad lab yields 404. -/
theorem c8_creation_guards (userId : String) (labId : Option String)
    (lab : Option Lab) (selT : Option (List TestItem)) (selP : Option (List PkgItem))
    (apptD : Option Int) (apptT payM notesReq : Option String) (now : Int)
    (h1 : optFalsy labId = false) (h2 : apptD ≠ none)
    (h3 : optFalsy apptT = false) (h4 : optFalsy payM = false) :
    (lab = none →
      (createBooking userId labId lab selT selP apptD apptT payM notesReq now).1.code = 404) ∧
    (∀ L, lab = some L → L.isActive = false →
      (createBooking userId labId lab selT selP apptD apptT payM notesReq now).1.code = 404) ∧
    (∀ L, lab = some L → L.isActive = true → selT.getD [] = [] → selP.getD [] = [] →
      (createBooking userId labId lab selT selP apptD apptT payM notesReq now).1.code = 400) ∧
    (∀ L, lab = some L → L.isActive = true →
      ¬(selT.getD [] = [] ∧ selP.getD [] = []) →
      (∀ t ∈ selT.getD [], t.testId ∈ L.availableTests) →
      payM.getD "" ∈ ["pay_now", "pay_later"] →
      (∀ t ∈ selT.getD [], t.price ≠ none ∧ t.testName ≠ "") →
      (∀ p ∈ selP.getD [], p.price ≠ none ∧ p.packageName ≠ "") →
      (createBooking userId labId lab selT selP apptD apptT payM notesReq now).1.code = 201 ∧
      ((createBooking userId labId lab selT selP apptD apptT payM notesReq now).2.map
        Booking.status) = some BStatus.pending ∧
      ((createBooking userId labId lab selT selP apptD apptT payM notesReq now).2.map
        Booking.paymentStatus) = some PayStatus.pending ∧
      ((createBooking userId labId lab selT selP apptD apptT payM notesReq now).2.map
        Booking.totalAmount) =
        some (sumTestPrices (selT.getD []) + sumPkgPrices (selP.getD []))) ∧
    (∀ L, lab = some L → L.isActive = true →
      ¬(selT.getD [] = [] ∧ selP.getD [] = []) →
      (∀ t ∈ selT.getD [], t.testId ∈ L.availableTests) →
      payM.getD "" ∉ ["pay_now", "pay_later"] →
      (createBooking userId labId lab selT selP apptD apptT payM notesReq now).1.code = 400 ∧
      (createBooking userId labId lab selT selP apptD apptT payM notesReq now).2 = none) := by
  refine ⟨fun hl => ?_, fun L hl hin => ?_, fun L hl hA hT hP => ?_,
    fun L hl hA hne hmem hpmv hprice hpkg => ?_, fun L hl hA hne hmem hpmv => ?_⟩
  · simp [createBooking, h1, h2, h3, h4, hl]
  · simp [createBooking, h1, h2, h3, h4, hl, hin]
  · simp [createBooking, h1, h2, h3, h4, hl, hA, hT, hP]
  · have hcond : ¬(¬ selT.getD [] = [] ∧ ∃ x ∈ selT.getD [], x.testId ∉ L.availableTests) := by
      rintro ⟨-, x, hx, hnot⟩
      exact hnot (hmem x hx)
    have hsv : schemaValid
        { userId := userId, labId := labId.getD "",
          selectedTests := selT.getD [], selectedPackages := selP.getD [],
          appointmentDate := apptD.getD 0, appointmentTime := apptT.getD "",
          paymentMethod := payM.getD "",
          totalAmount := sumTestPrices (selT.getD []) + sumPkgPrices (selP.getD []),
          status := .pending, paymentStatus := .pending,
          paidAmount := 0, paymentDate := none,
          razorpayOrderId := none, razorpayPaymentId := none,
          razorpaySignature := none, reportFile := none,
          reportUploadDate := none, testResults := [],
          notes := notesReq.getD "", isActive := true, updatedAt := now } :=
      ⟨hpmv, hprice, hpkg⟩
    simp [createBooking, h1, h2, h3, h4, hl, hA, hne, hcond, hsv]
  · have hcond : ¬(¬ selT.getD [] = [] ∧ ∃ x ∈ selT.getD [], x.testId ∉ L.availableTests) := by
      rintro ⟨-, x, hx, hnot⟩
      exact hnot (hmem x hx)
    have hsv : ¬ schemaValid
        { userId := userId, labId := labId.getD "",
          selectedTests := selT.getD [], selectedPackages := selP.getD [],
          appointmentDate := apptD.getD 0, appointmentTime := apptT.getD "",
          paymentMethod := payM.getD "",
          totalAmount := sumTestPrices (selT.getD []) + sumPkgPrices (selP.getD []),
          status := .pending, paymentStatus := .pending,
          paidAmount := 0, paymentDate := none,
          razorpayOrderId := none, razorpayPaymentId := none,
          razorpaySignature := none, reportFile := none,
          reportUploadDate := none, testResults := [],
          notes := notesReq.getD "", isActive := true, updatedAt := now } :=
      fun hc => hpmv hc.1
    simp [createBooking, h1, h2, h3, h4, hl, hA, hne, hcond, hsv]

/-- Witness for C8 (amended) at an active lab offering test `t1` and a
request selecting that single test at price 500 with `paymentMethod`
`pay_now`. -/
theorem c8_creation_guards_witness :
    optFalsy (some "lab1") = false ∧ (some (100 : Int) ≠ none) ∧
    optFalsy (some "10:00") = false ∧ optFalsy (some "pay_now") = false ∧
    ((Option.some (Lab.mk true ["t1"]) = none →
      (createBooking "u1" (some "lab1") (some ⟨true, ["t1"]⟩)
        (some [⟨"t1", "CBC", some 500⟩]) none (some 100) (some "10:00")
        (some "pay_now") none 0).1.code = 404) ∧
    (∀ L, Option.some (Lab.mk true ["t1"]) = some L → L.isActive = false →
      (createBooking "u1" (some "lab1") (some ⟨true, ["t1"]⟩)
        (some [⟨"t1", "CBC", some 500⟩]) none (some 100) (some "10:00")
        (some "pay_now") none 0).1.code = 404) ∧
    (∀ L, Option.some (Lab.mk true ["t1"]) = some L → L.isActive = true →
      (Option.some [TestItem.mk "t1" "CBC" (some 500)]).getD [] = [] →
      (Option.none (α := List PkgItem)).getD [] = [] →
      (createBooking "u1" (some "lab1") (some ⟨true, ["t1"]⟩)
        (some [⟨"t1", "CBC", some 500⟩]) none (some 100) (some "10:00")
        (some "pay_now") none 0).1.code = 400) ∧
    (∀ L, Option.some (Lab.mk true ["t1"]) = some L → L.isActive = true →
      ¬((Option.some [TestItem.mk "t1" "CBC" (some 500)]).getD [] = [] ∧
        (Option.none (α := List PkgItem)).getD [] = []) →
      (∀ t ∈ (Option.some [TestItem.mk "t1" "CBC" (some 500)]).getD [],
        t.testId ∈ L.availableTests) →
      (Option.some "pay_now").getD "" ∈ ["pay_now", "pay_later"] →
      (∀ t ∈ (Option.some [TestItem.mk "t1" "CBC" (some 500)]).getD [],
        t.price ≠ none ∧ t.testName ≠ "") →
      (∀ p ∈ (Option.none (α := List PkgItem)).getD [],
        p.price ≠ none ∧ p.packageName ≠ "") →
      (createBooking "u1" (some "lab1") (some ⟨true, ["t1"]⟩)
        (some [⟨"t1", "CBC", some 500⟩]) none (some 100) (some "10:00")
        (some "pay_now") none 0).1.code = 201 ∧
      ((createBooking "u1" (some "lab1") (some ⟨true, ["t1"]⟩)
        (some [⟨"t1", "CBC", some 500⟩]) none (some 100) (some "10:00")
        (some "pay_now") none 0).2.map Booking.status) = some BStatus.pending ∧
      ((createBooking "u1" (some "lab1") (some ⟨true, ["t1"]⟩)
        (some [⟨"t1", "CBC", some 500⟩]) none (some 100) (some "10:00")
        (some "pay_now") none 0).2.map Booking.paymentStatus) = some PayStatus.pending ∧
      ((createBooking "u1" (some "lab1") (some ⟨true, ["t1"]⟩)
        (some [⟨"t1", "CBC", some 500⟩]) none (some 100) (some "10:00")
        (some "pay_now") none 0).2.map Booking.totalAmount) =
        some (sumTestPrices ((Option.some [TestItem.mk "t1" "CBC" (some 500)]).getD []) +
          sumPkgPrices ((Option.none (α := List PkgItem)).getD []))) ∧
    (∀ L, Option.some (Lab.mk true ["t1"]) = some L → L.isActive = true →
      ¬((Option.some [TestItem.mk "t1" "CBC" (some 500)]).getD [] = [] ∧
        (Option.none (α := List PkgItem)).getD [] = []) →
      (∀ t ∈ (Option.some [TestItem.mk "t1" "CBC" (some 500)]).getD [],
        t.testId ∈ L.availableTests) →
      (Option.some "pay_now").getD "" ∉ ["pay_now", "pay_later"] →
      (createBooking "u1" (some "lab1") (some ⟨true, ["t1"]⟩)
        (some [⟨"t1", "CBC", some 500⟩]) none (some 100) (some "10:00")
        (some "pay_now") none 0).1.code = 400 ∧
      (createBooking "u1" (some "lab1") (some ⟨true, ["t1"]⟩)
        (some [⟨"t1", "CBC", some 500⟩]) none (some 100) (some "10:00")
        (some "pay_now") none 0).2 = none)) :=
  ⟨by decide, by decide, by decide, by decide,
    c8_creation_guards "u1" (some "lab1") (some ⟨true, ["t1"]⟩)
      (some [⟨"t1", "CBC", some 500⟩]) none (some 100) (some "10:00") (some "pay_now")
      none 0 (by decide) (by decide) (by decide) (by decide)⟩

/-! ### C7: lemmas about the testId-keyed upsert map -/

theorem any_key_eq (m : List (String × ResultEntry)) (k : String) :
    (m.any (fun p => p.1 = k)) = true ↔ k ∈ m.map Prod.fst := by
  simp only [List.any_eq_true, List.mem_map, decide_eq_true_eq]

theorem findByKey_replace (m : List (String × ResultEntry)) (k : String) (v : ResultEntry) :
    findByKey (m.map (fun p => if p.1 = k then (k, v) else p)) k =
      if k ∈ m.map Prod.fst then some v else none := by
  induction m with
  | nil => simp [findByKey]
  | cons p t ih =>
    obtain ⟨a, w⟩ := p
    simp only [List.map_cons]
    dsimp only
    by_cases h : a = k
    · rw [if_pos h]
      subst h
      simp [findByKey]
    · rw [if_neg h]
      have h' : ¬ k = a := fun hc => h hc.symm
      by_cases hk : k ∈ List.map Prod.fst t
      · simp [findByKey, h, h', hk, ih]
      · simp [findByKey, h, h', hk, ih]

theorem findByKey_append_single (m : List (String × ResultEntry)) (k : String)
    (v : ResultEntry) :
    findByKey (m ++ [(k, v)]) k = (findByKey m k).getD v := by
  induction m with
  | nil => simp [findByKey]
  | cons p t ih =>
    by_cases h : p.1 = k
    · simp [findByKey, h]
    · simp [findByKey, h, ih]

theorem findByKey_eq_none_of_not_mem (m : List (String × ResultEntry)) (k : String)
    (h : k ∉ m.map Prod.fst) : findByKey m k = none := by
  induction m with
  | nil => rfl
  | cons p t ih =>
    simp only [List.map_cons, List.mem_cons] at h
    push_neg at h
    have h1 : ¬ p.1 = k := fun hc => h.1 hc.symm
    simp [findByKey, h1, ih h.2]

theorem findByKey_mapSet_self (m : List (String × ResultEntry)) (k : String)
    (v : ResultEntry) : findByKey (mapSet m k v) k = some v := by
  unfold mapSet
  by_cases h : (m.any (fun p => p.1 = k)) = true
  · rw [if_pos h, findByKey_replace, if_pos ((any_key_eq m k).mp h)]
  · rw [if_neg h, findByKey_append_single,
      findByKey_eq_none_of_not_mem m k (fun hc => h ((any_key_eq m k).mpr hc))]
    rfl

theorem findByKey_replace_ne (m : List (String × ResultEntry)) (k k' : String)
    (v : ResultEntry) (h : k' ≠ k) :
    findByKey (m.map (fun p => if p.1 = k then (k, v) else p)) k' = findByKey m k' := by
  induction m with
  | nil => rfl
  | cons p t ih =>
    obtain ⟨a, w⟩ := p
    simp only [List.map_cons]
    dsimp only
    by_cases hp : a = k
    · rw [if_pos hp]
      have ha : ¬ k = k' := fun hc => h hc.symm
      have ha2 : ¬ a = k' := by
        rw [hp]; exact ha
      simp [findByKey, ha, ha2, ih]
    · rw [if_neg hp]
      by_cases hq : a = k'
      · simp [findByKey, hq]
      · simp [findByKey, hq, ih]

theorem findByKey_append_single_ne (m : List (String × ResultEntry)) (k k' : String)
    (v : ResultEntry) (h : k' ≠ k) :
    findByKey (m ++ [(k, v)]) k' = findByKey m k' := by
  induction m with
  | nil =>
    have hk : ¬ k = k' := fun hc => h hc.symm
    simp [findByKey, hk]
  | cons p t ih =>
    by_cases hq : p.1 = k'
    · simp [findByKey, hq]
    · simp [findByKey, hq, ih]

theorem findByKey_mapSet_ne (m : List (String × ResultEntry)) (k k' : String)
    (v : ResultEntry) (h : k' ≠ k) :
    findByKey (mapSet m k v) k' = findByKey m k' := by
  unfold mapSet
  by_cases hany : (m.any (fun p => p.1 = k)) = true
  · rw [if_pos hany, findByKey_replace_ne m k k' v h]
  · rw [if_neg hany, findByKey_append_single_ne m k k' v h]

theorem mapKeys_replace (m : List (String × ResultEntry)) (k : String) (v : ResultEntry) :
    (m.map (fun p => if p.1 = k then (k, v) else p)).map Prod.fst = m.map Prod.fst := by
  induction m with
  | nil => rfl
  | cons p t ih =>
    obtain ⟨a, w⟩ := p
    simp only [List.map_cons]
    dsimp only
    by_cases hp : a = k
    · rw [if_pos hp]
      subst hp
      simp [ih]
    · rw [if_neg hp]
      simp [ih]

theorem mapKeys_mapSet (m : List (String × ResultEntry)) (k : String) (v : ResultEntry) :
    (mapSet m k v).map Prod.fst =
      if k ∈ m.map Prod.fst then m.map Prod.fst else m.map Prod.fst ++ [k] := by
  unfold mapSet
  by_cases h : (m.any (fun p => p.1 = k)) = true
  · rw [if_pos h, if_pos ((any_key_eq m k).mp h), mapKeys_replace]
  · rw [if_neg h, if_neg (fun hc => h ((any_key_eq m k).mpr hc))]
    simp

theorem nodup_mapKeys_mapSet (m : List (String × ResultEntry)) (k : String)
    (v : ResultEntry) (h : (m.map Prod.fst).Nodup) :
    ((mapSet m k v).map Prod.fst).Nodup := by
  rw [mapKeys_mapSet]
  by_cases hm : k ∈ m.map Prod.fst
  · rwa [if_pos hm]
  · rw [if_neg hm]
    simp [List.nodup_append, h, hm]

theorem wellKeyed_mapSet (m : List (String × ResultEntry)) (k : String)
    (v : ResultEntry) (hm : WellKeyed m) (hv : v.testId = k) :
    WellKeyed (mapSet m k v) := by
  unfold mapSet
  by_cases h : (m.any (fun p => p.1 = k)) = true
  · rw [if_pos h]
    intro p hp
    rcases List.mem_map.mp hp with ⟨q, hq, he⟩
    by_cases hqk : q.1 = k
    · simp only [hqk, if_pos] at he
      rw [← he]
      exact hv
    · rw [if_neg hqk] at he
      rw [← he]
      exact hm q hq
  · rw [if_neg h]
    intro p hp
    rcases List.mem_append.mp hp with hq | hq
    · exact hm p hq
    · rcases List.mem_singleton.mp hq with rfl
      exact hv

theorem findResult_map_snd (m : List (String × ResultEntry)) (k : String)
    (hm : WellKeyed m) : findResult (m.map Prod.snd) k = findByKey m k := by
  induction m with
  | nil => rfl
  | cons p t ih =>
    have hp : p.2.testId = p.1 := hm p (List.mem_cons_self p t)
    have ht : WellKeyed t := fun q hq => hm q (List.mem_cons_of_mem p hq)
    by_cases h : p.1 = k
    · simp [findResult, findByKey, hp, h]
    · have h2 : ¬ p.2.testId = k := by
        rw [hp]; exact h
      simp [findResult, findByKey, h, h2, ih ht]

theorem mapSnd_testId (m : List (String × ResultEntry)) (hm : WellKeyed m) :
    (m.map Prod.snd).map ResultEntry.testId = m.map Prod.fst := by
  induction m with
  | nil => rfl
  | cons p t ih =>
    have hp : p.2.testId = p.1 := hm p (List.mem_cons_self p t)
    have ht : WellKeyed t := fun q hq => hm q (List.mem_cons_of_mem p hq)
    simp [hp, ih ht]

theorem buildMap_go (rs : List ResultEntry) (m : List (String × ResultEntry))
    (hn : (rs.map ResultEntry.testId).Nodup)
    (hd : ∀ r ∈ rs, r.testId ∉ m.map Prod.fst) :
    rs.foldl (fun m r => mapSet m r.testId r) m =
      m ++ rs.map (fun r => (r.testId, r)) := by
  induction rs generalizing m with
  | nil => simp
  | cons r t ih =>
    have hn' : (r.testId :: t.map ResultEntry.testId).Nodup := by simpa using hn
    have htail : (t.map ResultEntry.testId).Nodup := hn'.of_cons
    have hhead : r.testId ∉ t.map ResultEntry.testId := (List.nodup_cons.mp hn').1
    have hnot : ¬ (m.any (fun p => p.1 = r.testId)) = true := fun hc =>
      hd r (List.mem_cons_self r t) ((any_key_eq m r.testId).mp hc)
    have hstep : mapSet m r.testId r = m ++ [(r.testId, r)] := by
      unfold mapSet
      rw [if_neg hnot]
    have hd' : ∀ r' ∈ t, r'.testId ∉ (m ++ [(r.testId, r)]).map Prod.fst := by
      intro r' hr'
      simp only [List.map_append, List.mem_append, List.map_cons, List.map_nil,
        List.mem_singleton, not_or]
      refine ⟨hd r' (List.mem_cons_of_mem r hr'), fun hc => ?_⟩
      exact hhead (hc ▸ List.mem_map_of_mem ResultEntry.testId hr')
    simp only [List.foldl_cons, hstep]
    rw [ih (m ++ [(r.testId, r)]) htail hd']
    simp

theorem findByKey_keyed (rs : List ResultEntry) (k : String) :
    findByKey (rs.map (fun r => (r.testId, r))) k = findResult rs k := by
  induction rs with
  | nil => rfl
  | cons r t ih =>
    by_cases h : r.testId = k
    · simp [findByKey, findResult, h]
    · simp [findByKey, findResult, h, ih]

theorem buildMap_find (rs : List ResultEntry) (k : String)
    (hn : (rs.map ResultEntry.testId).Nodup) :
    findByKey (buildMap rs) k = findResult rs k := by
  unfold buildMap
  rw [buildMap_go rs [] hn (by simp), List.nil_append, findByKey_keyed]

theorem buildMap_wellKeyed (rs : List ResultEntry) : WellKeyed (buildMap rs) := by
  unfold buildMap
  suffices h : ∀ m, WellKeyed m → WellKeyed (rs.foldl (fun m r => mapSet m r.testId r) m) by
    exact h [] (fun p hp => absurd hp (List.not_mem_nil p))
  induction rs with
  | nil => exact fun m hm => hm
  | cons r t ih =>
    intro m hm
    exact ih (mapSet m r.testId r) (wellKeyed_mapSet m r.testId r hm rfl)

theorem buildMap_nodup (rs : List ResultEntry) :
    ((buildMap rs).map Prod.fst).Nodup := by
  unfold buildMap
  suffices h : ∀ m, (m.map Prod.fst).Nodup →
      ((rs.foldl (fun m r => mapSet m r.testId r) m).map Prod.fst).Nodup by
    exact h [] (by simp)
  induction rs with
  | nil => exact fun m hm => hm
  | cons r t ih =>
    intro m hm
    exact ih (mapSet m r.testId r) (nodup_mapKeys_mapSet m r.testId r hm)

theorem applySubs_cons (uid : String) (now : Int) (m : List (String × ResultEntry))
    (tr : RawSubmission) (t : List RawSubmission) :
    applySubs uid now m (tr :: t) =
      applySubs uid now
        (if subValid tr = true then
          mapSet m (tr.testId.getD "") (newEntry (tr.testId.getD "") (tr.values.getD []) uid now)
        else m) t := rfl

theorem applySubs_find_not_mem (uid : String) (now : Int)
    (m : List (String × ResultEntry)) (trs : List RawSubmission) (k : String)
    (h : k ∉ trs.map (fun tr => tr.testId.getD "")) :
    findByKey (applySubs uid now m trs) k = findByKey m k := by
  induction trs generalizing m with
  | nil => rfl
  | cons tr t ih =>
    simp only [List.map_cons, List.mem_cons, not_or] at h
    rw [applySubs_cons]
    by_cases hv : subValid tr = true
    · rw [if_pos hv, ih _ h.2, findByKey_mapSet_ne _ _ _ _ h.1]
    · rw [if_neg hv, ih _ h.2]

theorem applySubs_find_mem (uid : String) (now : Int)
    (m : List (String × ResultEntry)) (trs : List RawSubmission) (tr : RawSubmission)
    (hn : (trs.map (fun tr => tr.testId.getD "")).Nodup)
    (htr : tr ∈ trs) (hv : subValid tr = true) :
    findByKey (applySubs uid now m trs) (tr.testId.getD "") =
      some (newEntry (tr.testId.getD "") (tr.values.getD []) uid now) := by
  induction trs generalizing m with
  | nil => cases htr
  | cons hd t ih =>
    have hn' : (hd.testId.getD "" :: t.map (fun tr => tr.testId.getD "")).Nodup := by
      simpa using hn
    rcases List.mem_cons.mp htr with rfl | hmem
    · rw [applySubs_cons, if_pos hv,
        applySubs_find_not_mem uid now _ t _ (List.nodup_cons.mp hn').1,
        findByKey_mapSet_self]
    · rw [applySubs_cons]
      by_cases hvhd : subValid hd = true
      · rw [if_pos hvhd]
        exact ih _ hn'.of_cons hmem
      · rw [if_neg hvhd]
        exact ih _ hn'.of_cons hmem

theorem applySubs_nodup (uid : String) (now : Int) (m : List (String × ResultEntry))
    (trs : List RawSubmission) (h : (m.map Prod.fst).Nodup) :
    ((applySubs uid now m trs).map Prod.fst).Nodup := by
  induction trs generalizing m with
  | nil => exact h
  | cons tr t ih =>
    rw [applySubs_cons]
    by_cases hv : subValid tr = true
    · rw [if_pos hv]
      exact ih _ (nodup_mapKeys_mapSet _ _ _ h)
    · rw [if_neg hv]
      exact ih _ h

theorem applySubs_wellKeyed (uid : String) (now : Int) (m : List (String × ResultEntry))
    (trs : List RawSubmission) (h : WellKeyed m) :
    WellKeyed (applySubs uid now m trs) := by
  induction trs generalizing m with
  | nil => exact h
  | cons tr t ih =>
    rw [applySubs_cons]
    by_cases hv : subValid tr = true
    · rw [if_pos hv]
      exact ih _ (wellKeyed_mapSet _ _ _ h rfl)
    · rw [if_neg hv]
      exact ih _ h

/-- C7: for a booking in `confirmed` or `sample_collected` and an authorized
lab operator submitting a non-empty list of valid per-test result sets (with
distinct testIds, on a booking whose stored result sets have distinct
testIds), the results operation succeeds, sets the booking status to
`result_published`, replaces the entry for each submitted testId wholesale by
a fresh entry carrying the cleaned submitted values, the submitter identity
and the submission timestamp, leaves the entry of every other testId exactly
as it was, and leaves at most one result set per testId. -/
theorem c7_results_upsert_replaces_by_testId (caller : Caller) (dbLab : Option String)
    (b : Booking) (trs : List RawSubmission) (now : Int)
    (hrole : caller.role ∈ opRoles)
    (hst : b.status = BStatus.confirmed ∨ b.status = BStatus.sample_collected)
    (hm : resolveLab caller dbLab = some b.labId)
    (hne : trs ≠ [])
    (hval : ∀ tr ∈ trs, subValid tr = true)
    (hnodup : (trs.map (fun tr => tr.testId.getD "")).Nodup)
    (hbn : (b.testResults.map ResultEntry.testId).Nodup) :
    ∃ b', (submitResults caller dbLab (some b) (some trs) now).1.code = 200 ∧
      (submitResults caller dbLab (some b) (some trs) now).2 = some b' ∧
      b'.status = BStatus.result_published ∧
      (∀ tr ∈ trs, findResult b'.testResults (tr.testId.getD "") =
        some (newEntry (tr.testId.getD "") (tr.values.getD []) caller.id now)) ∧
      (∀ k, k ∉ trs.map (fun tr => tr.testId.getD "") →
        findResult b'.testResults k = findResult b.testResults k) ∧
      (b'.testResults.map ResultEntry.testId).Nodup := by
  have hstl : b.status ∈ [BStatus.confirmed, BStatus.sample_collected] := by
    rcases hst with h | h <;> simp [h]
  have hlm : labMatch (resolveLab caller dbLab) b.labId = true :=
    (labMatch_eq_true_iff _ _).mpr hm
  have hstep : submitResults caller dbLab (some b) (some trs) now =
      (⟨200, true, "Results saved successfully"⟩,
        some { b with
          testResults := (applySubs caller.id now (buildMap b.testResults) trs).map Prod.snd,
          status := .result_published, updatedAt := now }) := by
    simp [submitResults, hrole, hne, hstl, hlm]
  have hwk : WellKeyed (applySubs caller.id now (buildMap b.testResults) trs) :=
    applySubs_wellKeyed _ _ _ _ (buildMap_wellKeyed _)
  have hnd : ((applySubs caller.id now (buildMap b.testResults) trs).map Prod.fst).Nodup :=
    applySubs_nodup _ _ _ _ (buildMap_nodup _)
  refine ⟨{ b with
      testResults := (applySubs caller.id now (buildMap b.testResults) trs).map Prod.snd,
      status := .result_published, updatedAt := now }, ?_, ?_, rfl, ?_, ?_, ?_⟩
  · rw [hstep]
  · rw [hstep]
  · intro tr htr
    show findResult ((applySubs caller.id now (buildMap b.testResults) trs).map Prod.snd)
      (tr.testId.getD "") = _
    rw [findResult_map_snd _ _ hwk]
    exact applySubs_find_mem caller.id now (buildMap b.testResults) trs tr hnodup htr
      (hval tr htr)
  · intro k hk
    show findResult ((applySubs caller.id now (buildMap b.testResults) trs).map Prod.snd) k = _
    rw [findResult_map_snd _ _ hwk, applySubs_find_not_mem caller.id now _ trs k hk,
      buildMap_find _ _ hbn]
  · show (((applySubs caller.id now (buildMap b.testResults) trs).map Prod.snd).map
      ResultEntry.testId).Nodup
    rw [mapSnd_testId _ hwk]
    exact hnd

/-- Witness for C7: a staff member of lab `lab1` submits one result set for
`t1` on `bkRes`. -/
theorem c7_results_upsert_replaces_by_testId_witness :
    ("staff" ∈ opRoles) ∧
    (bkRes.status = BStatus.confirmed ∨ bkRes.status = BStatus.sample_collected) ∧
    resolveLab ⟨"s2", "staff", some "lab1"⟩ none = some bkRes.labId ∧
    [subm1] ≠ [] ∧
    (∀ tr ∈ [subm1], subValid tr = true) ∧
    (([subm1].map (fun tr => tr.testId.getD "")).Nodup) ∧
    ((bkRes.testResults.map ResultEntry.testId).Nodup) ∧
    (∃ b', (submitResults ⟨"s2", "staff", some "lab1"⟩ none (some bkRes)
        (some [subm1]) 77).1.code = 200 ∧
      (submitResults ⟨"s2", "staff", some "lab1"⟩ none (some bkRes)
        (some [subm1]) 77).2 = some b' ∧
      b'.status = BStatus.result_published ∧
      (∀ tr ∈ [subm1], findResult b'.testResults (tr.testId.getD "") =
        some (newEntry (tr.testId.getD "") (tr.values.getD []) "s2" 77)) ∧
      (∀ k, k ∉ [subm1].map (fun tr => tr.testId.getD "") →
        findResult b'.testResults k = findResult bkRes.testResults k) ∧
      (b'.testResults.map ResultEntry.testId).Nodup) :=
  ⟨by decide, by decide, by decide, by decide, by decide, by decide, by decide,
    c7_results_upsert_replaces_by_testId ⟨"s2", "staff", some "lab1"⟩ none bkRes
      [subm1] 77 (by decide) (by decide) (by decide) (by decide) (by decide)
      (by decide) (by decide)⟩

end Labmate
